import Mathlib

/-!
Shallow embedding of the `clickhouse-filters` crate (src/lib/filtering.rs,
src/lib/mod.rs, src/lib/pagination.rs, src/lib/sorting.rs).

Modelling conventions:
* Rust `Result<T, eyre::Error>` becomes `Except String T`; error messages keep
  the source's format strings.
* Rust machine integers become `Nat`/`Int`; the per-width `parse` functions
  keep the exact range checks, so values stored in conditions are in range.
* Rust `String`/`&str` become Lean `String`.  Rust compares and sorts strings
  by UTF-8 byte order, which coincides with Lean's code-point order on valid
  UTF-8.  `str::to_uppercase`/`to_lowercase` are modelled as per-`Char`
  ASCII-style case mapping (the only inputs the library feeds them are ASCII
  operator symbols, connector keywords and boolean tokens).
* Rust `f32`/`f64` values are kept as the source text that was parsed; the
  crate re-renders floats with Rust's float formatting, which no claim
  touches, so that formatting step is not modelled.
* `HashMap<&str, ColumnDef>` becomes a lookup function `String → Option ColumnDef`.
-/

namespace ClickhouseFilters

/-- Alias for the builtin string type, needed in signatures inside the
`ColumnDef` namespace where `String` names a constructor. -/
abbrev Str : Type := String

/-- The single-quote character, written via its code point. -/
def squote : Char := Char.ofNat 39

/-- `LogicalOperator` from filtering.rs. -/
inductive LogicalOperator
  | And
  | Or
deriving DecidableEq, Repr

/-- `LogicalOperator::as_sql`. -/
def LogicalOperator.as_sql : LogicalOperator → String
  | .And => "AND"
  | .Or => "OR"

/-- `FilterOperator` from filtering.rs. -/
inductive FilterOperator
  | Equal
  | NotEqual
  | GreaterThan
  | GreaterThanOrEqual
  | LessThan
  | LessThanOrEqual
  | Like
  | NotLike
  | In
  | NotIn
  | IsNull
  | IsNotNull
  | StartsWith
  | EndsWith
  | ArrayContains
  | ArrayHas
  | ArrayAll
  | ArrayAny
  | DateEqual
  | DateRange
  | RelativeDate
deriving DecidableEq, Repr

/-- `FilterOperator::as_sql`. -/
def FilterOperator.as_sql : FilterOperator → String
  | .Equal => "="
  | .NotEqual => "!="
  | .GreaterThan => ">"
  | .GreaterThanOrEqual => ">="
  | .LessThan => "<"
  | .LessThanOrEqual => "<="
  | .Like => "LIKE"
  | .NotLike => "NOT LIKE"
  | .In => "IN"
  | .NotIn => "NOT IN"
  | .IsNull => "IS NULL"
  | .IsNotNull => "IS NOT NULL"
  | .StartsWith => "LIKE"
  | .EndsWith => "LIKE"
  | .ArrayContains => "hasAll"
  | .ArrayHas => "has"
  | .ArrayAll => "ALL"
  | .ArrayAny => "ANY"
  | .DateEqual => "="
  | .DateRange => "BETWEEN"
  | .RelativeDate => ">"

/-- `ColumnTypeInfo` from filtering.rs. -/
inductive ColumnTypeInfo
  | String
  | Numeric
  | UUID
  | Date
  | Boolean
  | Array
  | JSON
  | Other
deriving DecidableEq, Repr

/-- `DateRangeType` from filtering.rs. -/
inductive DateRangeType
  | Exact (timestamp : String)
  | DateOnly (date : String)
  | Range (start stop : String)
  | Relative (expr : String)
deriving DecidableEq, Repr

/-- `FilterCondition` from filtering.rs.  Unsigned values are `Nat`, signed
values are `Int`; float values keep the parsed source text (see header). -/
inductive FilterCondition
  | StringValue (column : String) (operator : FilterOperator) (value : Option String)
  | FixedStringValue (column : String) (operator : FilterOperator) (value : Option String)
  | UInt8Value (column : String) (operator : FilterOperator) (value : Option Nat)
  | UInt16Value (column : String) (operator : FilterOperator) (value : Option Nat)
  | UInt32Value (column : String) (operator : FilterOperator) (value : Option Nat)
  | UInt64Value (column : String) (operator : FilterOperator) (value : Option Nat)
  | Int8Value (column : String) (operator : FilterOperator) (value : Option Int)
  | Int16Value (column : String) (operator : FilterOperator) (value : Option Int)
  | Int32Value (column : String) (operator : FilterOperator) (value : Option Int)
  | Int64Value (column : String) (operator : FilterOperator) (value : Option Int)
  | Float32Value (column : String) (operator : FilterOperator) (value : Option String)
  | Float64Value (column : String) (operator : FilterOperator) (value : Option String)
  | DateValue (column : String) (operator : FilterOperator) (value : Option String)
  | DateTimeValue (column : String) (operator : FilterOperator) (value : Option String)
  | DateTime64Value (column : String) (operator : FilterOperator) (value : Option String)
  | DateRange (column : String) (range_type : DateRangeType)
  | BooleanValue (column : String) (operator : FilterOperator) (value : Option Bool)
  | UUIDValue (column : String) (operator : FilterOperator) (value : Option String)
  | InValues (column : String) (operator : FilterOperator) (values : List String)
      (column_type : Option ColumnTypeInfo)
  | ArrayContains (column : String) (operator : FilterOperator) (value : String)
  | ArrayHas (column : String) (operator : FilterOperator) (value : String)
  | JSONValue (column : String) (operator : FilterOperator) (value : Option String)
      (path : Option String)
deriving DecidableEq, Repr

/-- Double every single quote in a character list (`str::replace('\x27', "''")`). -/
def escapeChars : List Char → List Char
  | [] => []
  | c :: cs => if c = squote then squote :: squote :: escapeChars cs else c :: escapeChars cs

/-- `FilterCondition::escape_string`: `value.replace('\x27', "''")`. -/
def FilterCondition.escape_string (value : String) : String :=
  ⟨escapeChars value.data⟩

/-- Rust `v.parse::<f64>().is_ok()`: whether the string matches Rust's float
grammar `Sign? (inf | infinity | nan | Number)` (keywords case-insensitive),
`Number ::= Digits (. Digits?)? Exp? | . Digits Exp?`, `Exp ::= (e|E) Sign? Digits`. -/
def floatExpOk : List Char → Bool
  | [] => true
  | c :: rest =>
    if c = 'e' ∨ c = 'E' then
      let digits := match rest with
        | d :: ds => if d = '+' ∨ d = '-' then ds else rest
        | [] => []
      decide (digits ≠ []) && digits.all Char.isDigit
    else false

/-- The `Number` part of the Rust float grammar. -/
def floatNumberOk (cs : List Char) : Bool :=
  let p1 := cs.span Char.isDigit
  match p1.2 with
  | [] => decide (p1.1 ≠ [])
  | c :: rest =>
    if c = '.' then
      let p2 := rest.span Char.isDigit
      (decide (p1.1 ≠ []) || decide (p2.1 ≠ [])) && floatExpOk p2.2
    else
      decide (p1.1 ≠ []) && floatExpOk p1.2

/-- Whether Rust's `str::parse::<f64>` succeeds on `s`. -/
def canParseF64 (s : String) : Bool :=
  let cs := match s.data with
    | c :: rest => if c = '+' ∨ c = '-' then rest else s.data
    | [] => []
  let lower := cs.map Char.toLower
  if lower = "inf".data ∨ lower = "infinity".data ∨ lower = "nan".data then true
  else floatNumberOk cs

/-- The digits of a decimal integer literal, or `none` if empty / non-digits. -/
def digitsToNat? (cs : List Char) : Option Nat :=
  if cs ≠ [] ∧ cs.all Char.isDigit then
    some (cs.foldl (fun a c => a * 10 + (c.toNat - 48)) 0)
  else none

/-- Rust unsigned-integer `FromStr`: optional `+`, then digits. -/
def parseUnsignedNat? (s : String) : Option Nat :=
  match s.data with
  | [] => none
  | c :: rest => if c = '+' then digitsToNat? rest else digitsToNat? (c :: rest)

/-- Rust signed-integer `FromStr`: optional `+`/`-`, then digits. -/
def parseSignedInt? (s : String) : Option Int :=
  match s.data with
  | [] => none
  | c :: rest =>
    if c = '-' then (digitsToNat? rest).map (fun n => -(n : Int))
    else if c = '+' then (digitsToNat? rest).map (fun n => (n : Int))
    else (digitsToNat? (c :: rest)).map (fun n => (n : Int))

/-- `value.parse::<u8>()` (with the u8 range check). -/
def parseU8? (s : String) : Option Nat :=
  (parseUnsignedNat? s).bind fun n => if n < 2 ^ 8 then some n else none

/-- `value.parse::<u16>()`. -/
def parseU16? (s : String) : Option Nat :=
  (parseUnsignedNat? s).bind fun n => if n < 2 ^ 16 then some n else none

/-- `value.parse::<u32>()`. -/
def parseU32? (s : String) : Option Nat :=
  (parseUnsignedNat? s).bind fun n => if n < 2 ^ 32 then some n else none

/-- `value.parse::<u64>()`. -/
def parseU64? (s : String) : Option Nat :=
  (parseUnsignedNat? s).bind fun n => if n < 2 ^ 64 then some n else none

/-- `value.parse::<i8>()`. -/
def parseI8? (s : String) : Option Int :=
  (parseSignedInt? s).bind fun i => if -(2 ^ 7) ≤ i ∧ i < 2 ^ 7 then some i else none

/-- `value.parse::<i16>()`. -/
def parseI16? (s : String) : Option Int :=
  (parseSignedInt? s).bind fun i => if -(2 ^ 15) ≤ i ∧ i < 2 ^ 15 then some i else none

/-- `value.parse::<i32>()`. -/
def parseI32? (s : String) : Option Int :=
  (parseSignedInt? s).bind fun i => if -(2 ^ 31) ≤ i ∧ i < 2 ^ 31 then some i else none

/-- `value.parse::<i64>()`. -/
def parseI64? (s : String) : Option Int :=
  (parseSignedInt? s).bind fun i => if -(2 ^ 63) ≤ i ∧ i < 2 ^ 63 then some i else none

/-- Per-`Char` upper-casing, modelling `str::to_uppercase` on the ASCII
operator/connector tokens this crate feeds it. -/
def toUpperString (s : String) : String := ⟨s.data.map Char.toUpper⟩

/-- Per-`Char` lower-casing, modelling `str::to_lowercase`. -/
def toLowerString (s : String) : String := ⟨s.data.map Char.toLower⟩

/-- Rust `str::trim`: strip leading and trailing whitespace. -/
def trimString (s : String) : String :=
  ⟨((s.data.dropWhile Char.isWhitespace).reverse.dropWhile Char.isWhitespace).reverse⟩

/-- Rust `str::split(sep)` on a character separator, over the char list
(`"" → [""]`, separators at the ends produce empty pieces, like Rust). -/
def splitOnChar (sep : Char) : List Char → List (List Char)
  | [] => [[]]
  | c :: rest =>
    let r := splitOnChar sep rest
    if c = sep then [] :: r
    else
      match r with
      | h :: t => (c :: h) :: t
      | [] => [[c]]

/-- Rust `str::split(sep)` as strings. -/
def splitString (sep : Char) (s : String) : List String :=
  (splitOnChar sep s.data).map (fun l => ⟨l⟩)

/-- The shared arm of `FilterCondition::to_sql` for the eight integer
variants; `value_str` is `value.map(|v| v.to_string())`. -/
def integerToSql (column : String) (operator : FilterOperator) (value_str : Option String) :
    Except String String :=
  match operator with
  | .Equal | .NotEqual | .GreaterThan | .GreaterThanOrEqual | .LessThan | .LessThanOrEqual =>
    match value_str with
    | some v => .ok (column ++ " " ++ operator.as_sql ++ " " ++ v)
    | none => .ok (column ++ " " ++ operator.as_sql)
  | .In =>
    match value_str with
    | some v =>
      .ok (column ++ " IN (" ++ String.intercalate ", " ((splitString (Char.ofNat 44) v).map trimString) ++ ")")
    | none => .error "IN operator requires values"
  | .NotIn =>
    match value_str with
    | some v =>
      .ok (column ++ " NOT IN (" ++ String.intercalate ", " ((splitString (Char.ofNat 44) v).map trimString) ++ ")")
    | none => .error "NOT IN operator requires values"
  | .IsNull => .ok (column ++ " IS NULL")
  | .IsNotNull => .ok (column ++ " IS NOT NULL")
  | _ => .error "Unsupported operator for integer type"

/-- The shared arm of `FilterCondition::to_sql` for the two float variants. -/
def floatToSql (column : String) (operator : FilterOperator) (value_str : Option String) :
    Except String String :=
  match operator with
  | .Equal | .NotEqual | .GreaterThan | .GreaterThanOrEqual | .LessThan | .LessThanOrEqual =>
    match value_str with
    | some v => .ok (column ++ " " ++ operator.as_sql ++ " " ++ v)
    | none => .ok (column ++ " " ++ operator.as_sql)
  | .IsNull => .ok (column ++ " IS NULL")
  | .IsNotNull => .ok (column ++ " IS NOT NULL")
  | _ => .error "Unsupported operator for float type"

/-- `FilterCondition::to_sql` from filtering.rs. -/
def FilterCondition.to_sql (self : FilterCondition) (case_insensitive : Bool) :
    Except String String :=
  match self with
  | .StringValue column operator value
  | .FixedStringValue column operator value =>
    match operator with
    | .Equal | .NotEqual =>
      match value with
      | some v =>
        if case_insensitive then
          .ok ("lower(" ++ column ++ ") " ++ operator.as_sql ++ " lower('" ++
            FilterCondition.escape_string v ++ "')")
        else
          .ok (column ++ " " ++ operator.as_sql ++ " '" ++
            FilterCondition.escape_string v ++ "'")
      | none => .ok (column ++ " " ++ operator.as_sql)
    | .Like | .NotLike =>
      match value with
      | some v =>
        if case_insensitive then
          .ok ("lower(" ++ column ++ ") " ++ operator.as_sql ++ " lower('" ++
            FilterCondition.escape_string v ++ "')")
        else
          .ok (column ++ " " ++ operator.as_sql ++ " '" ++
            FilterCondition.escape_string v ++ "'")
      | none => .ok (column ++ " " ++ operator.as_sql)
    | .StartsWith =>
      match value with
      | some v =>
        if case_insensitive then
          .ok ("lower(" ++ column ++ ") LIKE lower('" ++ FilterCondition.escape_string v ++ "%')")
        else
          .ok (column ++ " LIKE '" ++ FilterCondition.escape_string v ++ "%'")
      | none => .ok (column ++ " LIKE '%'")
    | .EndsWith =>
      match value with
      | some v =>
        if case_insensitive then
          .ok ("lower(" ++ column ++ ") LIKE lower('%" ++ FilterCondition.escape_string v ++ "')")
        else
          .ok (column ++ " LIKE '%" ++ FilterCondition.escape_string v ++ "'")
      | none => .ok (column ++ " LIKE '%'")
    | .In =>
      match value with
      | some v =>
        let values := (splitString (Char.ofNat 44) v).map trimString
        let formatted_values :=
          String.intercalate ", " (values.map (fun val =>
            "'" ++ FilterCondition.escape_string val ++ "'"))
        if case_insensitive then
          .ok ("lower(" ++ column ++ ") IN (" ++
            String.intercalate ", " (values.map (fun val =>
              "lower('" ++ FilterCondition.escape_string val ++ "')")) ++ ")")
        else
          .ok (column ++ " IN (" ++ formatted_values ++ ")")
      | none => .error "IN operator requires values"
    | .NotIn =>
      match value with
      | some v =>
        let values := (splitString (Char.ofNat 44) v).map trimString
        let formatted_values :=
          String.intercalate ", " (values.map (fun val =>
            "'" ++ FilterCondition.escape_string val ++ "'"))
        if case_insensitive then
          .ok ("lower(" ++ column ++ ") NOT IN (" ++
            String.intercalate ", " (values.map (fun val =>
              "lower('" ++ FilterCondition.escape_string val ++ "')")) ++ ")")
        else
          .ok (column ++ " NOT IN (" ++ formatted_values ++ ")")
      | none => .error "NOT IN operator requires values"
    | .IsNull => .ok (column ++ " IS NULL")
    | .IsNotNull => .ok (column ++ " IS NOT NULL")
    | _ => .error "Unsupported operator for string type"
  | .UInt8Value column operator value => integerToSql column operator (value.map toString)
  | .UInt16Value column operator value => integerToSql column operator (value.map toString)
  | .UInt32Value column operator value => integerToSql column operator (value.map toString)
  | .UInt64Value column operator value => integerToSql column operator (value.map toString)
  | .Int8Value column operator value => integerToSql column operator (value.map toString)
  | .Int16Value column operator value => integerToSql column operator (value.map toString)
  | .Int32Value column operator value => integerToSql column operator (value.map toString)
  | .Int64Value column operator value => integerToSql column operator (value.map toString)
  | .Float32Value column operator value => floatToSql column operator value
  | .Float64Value column operator value => floatToSql column operator value
  | .DateValue column operator value
  | .DateTimeValue column operator value
  | .DateTime64Value column operator value =>
    match operator with
    | .Equal | .NotEqual | .GreaterThan | .GreaterThanOrEqual | .LessThan | .LessThanOrEqual =>
      match value with
      | some v => .ok (column ++ " " ++ operator.as_sql ++ " '" ++ v ++ "'")
      | none => .ok (column ++ " " ++ operator.as_sql)
    | .IsNull => .ok (column ++ " IS NULL")
    | .IsNotNull => .ok (column ++ " IS NOT NULL")
    | _ => .error "Unsupported operator for date/time type"
  | .DateRange column range_type =>
    match range_type with
    | .Exact timestamp => .ok (column ++ " = '" ++ timestamp ++ "'")
    | .DateOnly date => .ok ("toDate(" ++ column ++ ") = toDate('" ++ date ++ "')")
    | .Range start stop => .ok (column ++ " BETWEEN '" ++ start ++ "' AND '" ++ stop ++ "'")
    | .Relative expr => .ok (column ++ " > " ++ expr)
  | .BooleanValue column operator value =>
    match operator with
    | .Equal | .NotEqual =>
      match value with
      | some v =>
        let bool_val : Nat := if v then 1 else 0
        .ok (column ++ " " ++ operator.as_sql ++ " " ++ toString bool_val)
      | none => .ok (column ++ " " ++ operator.as_sql)
    | .IsNull => .ok (column ++ " IS NULL")
    | .IsNotNull => .ok (column ++ " IS NOT NULL")
    | _ => .error "Unsupported operator for boolean type"
  | .UUIDValue column operator value =>
    match operator with
    | .Equal | .NotEqual =>
      match value with
      | some v => .ok (column ++ " " ++ operator.as_sql ++ " '" ++ v ++ "'")
      | none => .ok (column ++ " " ++ operator.as_sql)
    | .In =>
      match value with
      | some v =>
        let values :=
          String.intercalate ", " ((splitString (Char.ofNat 44) v).map (fun item => "'" ++ trimString item ++ "'"))
        .ok (column ++ " IN (" ++ values ++ ")")
      | none => .error "IN operator requires values"
    | .NotIn =>
      match value with
      | some v =>
        let values :=
          String.intercalate ", " ((splitString (Char.ofNat 44) v).map (fun item => "'" ++ trimString item ++ "'"))
        .ok (column ++ " NOT IN (" ++ values ++ ")")
      | none => .error "NOT IN operator requires values"
    | .IsNull => .ok (column ++ " IS NULL")
    | .IsNotNull => .ok (column ++ " IS NOT NULL")
    | _ => .error "Unsupported operator for UUID type"
  | .InValues column operator values column_type =>
    let is_text : Bool := match column_type with
      | some .String => true
      | _ => false
    let formatted_values :=
      if is_text then
        String.intercalate ", " (values.map (fun v =>
          if case_insensitive then "lower('" ++ FilterCondition.escape_string v ++ "')"
          else "'" ++ FilterCondition.escape_string v ++ "'"))
      else
        String.intercalate ", " (values.map (fun v =>
          if canParseF64 v then v else "'" ++ FilterCondition.escape_string v ++ "'"))
    let column_name := if case_insensitive ∧ is_text then "lower(" ++ column ++ ")" else column
    match operator with
    | .In => .ok (column_name ++ " IN (" ++ formatted_values ++ ")")
    | .NotIn => .ok (column_name ++ " NOT IN (" ++ formatted_values ++ ")")
    | _ => .error "Invalid operator for InValues condition"
  | .ArrayContains column _operator value =>
    let values :=
      String.intercalate ", " ((splitString (Char.ofNat 44) value).map (fun s =>
        "'" ++ FilterCondition.escape_string (trimString s) ++ "'"))
    .ok ("hasAll(" ++ column ++ ", array[" ++ values ++ "])")
  | .ArrayHas column _operator value =>
    .ok ("has(" ++ column ++ ", '" ++ FilterCondition.escape_string value ++ "')")
  | .JSONValue column operator value path =>
    let json_column := match path with
      | some p => "JSONExtractString(" ++ column ++ ", '" ++ p ++ "')"
      | none => column
    match operator with
    | .Equal | .NotEqual =>
      match value with
      | some v =>
        if case_insensitive ∧ operator = .Equal then
          .ok ("lower(" ++ json_column ++ ") = lower('" ++
            FilterCondition.escape_string v ++ "')")
        else if case_insensitive ∧ operator = .NotEqual then
          .ok ("lower(" ++ json_column ++ ") != lower('" ++
            FilterCondition.escape_string v ++ "')")
        else
          .ok (json_column ++ " " ++ operator.as_sql ++ " '" ++
            FilterCondition.escape_string v ++ "'")
      | none => .ok (json_column ++ " " ++ operator.as_sql)
    | .IsNull => .ok (json_column ++ " IS NULL")
    | .IsNotNull => .ok (json_column ++ " IS NOT NULL")
    | _ => .error "Unsupported operator for JSON type"

/-- `FilterCondition::date_exact`. -/
def FilterCondition.date_exact (column timestamp : String) : FilterCondition :=
  .DateRange column (.Exact timestamp)

/-- `FilterCondition::date_only`. -/
def FilterCondition.date_only (column date : String) : FilterCondition :=
  .DateRange column (.DateOnly date)

/-- `FilterCondition::date_range`. -/
def FilterCondition.date_range (column start stop : String) : FilterCondition :=
  .DateRange column (.Range start stop)

/-- `FilterCondition::relative_date`. -/
def FilterCondition.relative_date (column expr : String) : FilterCondition :=
  .DateRange column (.Relative expr)

/-- `FilterExpression` from filtering.rs. -/
inductive FilterExpression
  | Condition (condition : FilterCondition)
  | Group (operator : LogicalOperator) (expressions : List FilterExpression)
deriving Repr

mutual

/-- `FilterExpression::to_sql` from filtering.rs: a condition delegates, an
empty group renders to the empty string, a non-empty group joins its children
with the operator keyword and wraps the join in one parenthesis pair. -/
def FilterExpression.to_sql : FilterExpression → Bool → Except String String
  | .Condition condition, case_insensitive => condition.to_sql case_insensitive
  | .Group operator expressions, case_insensitive =>
    if expressions.isEmpty then .ok ""
    else
      match FilterExpression.to_sqlAll expressions case_insensitive with
      | .error e => .error e
      | .ok conditions =>
        .ok ("(" ++ String.intercalate (" " ++ operator.as_sql ++ " ") conditions ++ ")")

/-- The `expressions.iter().map(|e| e.to_sql(..)).collect::<Result<Vec<_>>>()`
step of the group arm (first error wins). -/
def FilterExpression.to_sqlAll : List FilterExpression → Bool → Except String (List String)
  | [], _ => .ok []
  | e :: rest, case_insensitive =>
    match e.to_sql case_insensitive with
    | .error err => .error err
    | .ok s =>
      match FilterExpression.to_sqlAll rest case_insensitive with
      | .error err => .error err
      | .ok ss => .ok (s :: ss)

end

/-- `JsonFilter` from filtering.rs (`n` name, `f` operator, `v` value,
`c` optional connector). -/
structure JsonFilter where
  n : String
  f : String
  v : String
  c : Option String
deriving Repr, DecidableEq

/-- `FilterBuilder` from filtering.rs. -/
structure FilterBuilder where
  root : Option FilterExpression
  case_insensitive : Bool
deriving Repr

/-- `FilterBuilder::new`. -/
def FilterBuilder.new : FilterBuilder := ⟨none, false⟩

/-- The builder method `FilterBuilder::case_insensitive` (renamed here because
the structure field already carries that name). -/
def FilterBuilder.with_case_insensitive (self : FilterBuilder) (value : Bool) : FilterBuilder :=
  { self with case_insensitive := value }

/-- `FilterBuilder::add_expression`: an existing root and the new expression
are combined into a fresh AND group. -/
def FilterBuilder.add_expression (self : FilterBuilder) (expression : FilterExpression) :
    FilterBuilder :=
  match self.root with
  | none => { self with root := some expression }
  | some existing =>
    { self with root := some (.Group .And [existing, expression]) }

/-- `FilterBuilder::add_condition`. -/
def FilterBuilder.add_condition (self : FilterBuilder) (condition : FilterCondition) :
    FilterBuilder :=
  self.add_expression (.Condition condition)

/-- `FilterBuilder::group`. -/
def FilterBuilder.group (self : FilterBuilder) (operator : LogicalOperator)
    (expressions : List FilterExpression) : FilterBuilder :=
  let g : FilterExpression := .Group operator expressions
  match self.root with
  | none => { self with root := some g }
  | some existing =>
    { self with root := some (.Group .And [existing, g]) }

/-- `FilterBuilder::build`: no root gives the empty string, a root whose SQL
is empty gives the empty string, otherwise `" WHERE "` plus the SQL. -/
def FilterBuilder.build (self : FilterBuilder) : Except String String :=
  match self.root with
  | none => .ok ""
  | some expression =>
    match expression.to_sql self.case_insensitive with
    | .error e => .error e
    | .ok sql => if sql = "" then .ok "" else .ok (" WHERE " ++ sql)

/-- The free function `parse_operator` from filtering.rs: unknown symbols fall
through to `Equal`. -/
def parse_operator (op : String) : FilterOperator :=
  let u := toUpperString op
  if u = "LIKE" then .Like
  else if u = "=" then .Equal
  else if u = "!=" then .NotEqual
  else if u = ">" then .GreaterThan
  else if u = ">=" then .GreaterThanOrEqual
  else if u = "<" then .LessThan
  else if u = "<=" then .LessThanOrEqual
  else if u = "IN" then .In
  else if u = "NOT IN" then .NotIn
  else if u = "IS NULL" then .IsNull
  else if u = "IS NOT NULL" then .IsNotNull
  else if u = "STARTS WITH" then .StartsWith
  else if u = "ENDS WITH" then .EndsWith
  else if u = "ARRAY CONTAINS" then .ArrayContains
  else if u = "ARRAY HAS" then .ArrayHas
  else if u = "DATE_ONLY" then .DateEqual
  else if u = "DATE_RANGE" then .DateRange
  else if u = "RELATIVE" then .RelativeDate
  else .Equal

/-- `ColumnDef` from mod.rs. -/
inductive ColumnDef
  | String (name : String)
  | FixedString (name : String)
  | UInt8 (name : String)
  | UInt16 (name : String)
  | UInt32 (name : String)
  | UInt64 (name : String)
  | UInt128 (name : String)
  | UInt256 (name : String)
  | Int8 (name : String)
  | Int16 (name : String)
  | Int32 (name : String)
  | Int64 (name : String)
  | Int128 (name : String)
  | Int256 (name : String)
  | Float32 (name : String)
  | Float64 (name : String)
  | Date (name : String)
  | Date32 (name : String)
  | DateTime (name : String)
  | DateTime64 (name : String)
  | Boolean (name : String)
  | UUID (name : String)
  | ArrayString (name : String)
  | ArrayUInt8 (name : String)
  | ArrayUInt16 (name : String)
  | ArrayUInt32 (name : String)
  | ArrayUInt64 (name : String)
  | ArrayInt8 (name : String)
  | ArrayInt16 (name : String)
  | ArrayInt32 (name : String)
  | ArrayInt64 (name : String)
  | ArrayFloat32 (name : String)
  | ArrayFloat64 (name : String)
  | Enum8 (name : String)
  | Enum16 (name : String)
  | IPv4 (name : String)
  | IPv6 (name : String)
  | Decimal (name : String)
  | JSON (name : String)
deriving Repr, DecidableEq

/-- `ColumnDef::get_column_name` (every variant carries its column name). -/
def ColumnDef.get_column_name : ColumnDef → Str
  | .String name | .FixedString name
  | .UInt8 name | .UInt16 name | .UInt32 name | .UInt64 name
  | .UInt128 name | .UInt256 name
  | .Int8 name | .Int16 name | .Int32 name | .Int64 name
  | .Int128 name | .Int256 name
  | .Float32 name | .Float64 name
  | .Date name | .Date32 name | .DateTime name | .DateTime64 name
  | .Boolean name | .UUID name
  | .ArrayString name
  | .ArrayUInt8 name | .ArrayUInt16 name | .ArrayUInt32 name | .ArrayUInt64 name
  | .ArrayInt8 name | .ArrayInt16 name | .ArrayInt32 name | .ArrayInt64 name
  | .ArrayFloat32 name | .ArrayFloat64 name
  | .Enum8 name | .Enum16 name
  | .IPv4 name | .IPv6 name
  | .Decimal name | .JSON name => name

/-- The operator table at the head of `ColumnDef::to_filter_condition`
(mod.rs); unlike `parse_operator` it also knows `NOT LIKE`, and an unknown
symbol is `none` (a hard error at the caller). -/
def registryOperator? (operator : String) : Option FilterOperator :=
  let u := toUpperString operator
  if u = "=" then some .Equal
  else if u = "!=" then some .NotEqual
  else if u = ">" then some .GreaterThan
  else if u = ">=" then some .GreaterThanOrEqual
  else if u = "<" then some .LessThan
  else if u = "<=" then some .LessThanOrEqual
  else if u = "LIKE" then some .Like
  else if u = "NOT LIKE" then some .NotLike
  else if u = "IN" then some .In
  else if u = "NOT IN" then some .NotIn
  else if u = "IS NULL" then some .IsNull
  else if u = "IS NOT NULL" then some .IsNotNull
  else if u = "STARTS WITH" then some .StartsWith
  else if u = "ENDS WITH" then some .EndsWith
  else if u = "ARRAY CONTAINS" then some .ArrayContains
  else if u = "ARRAY HAS" then some .ArrayHas
  else if u = "DATE_ONLY" then some .DateEqual
  else if u = "DATE_RANGE" then some .DateRange
  else if u = "RELATIVE" then some .RelativeDate
  else none

/-- `ColumnDef::to_filter_condition` from mod.rs: parse the operator symbol
(hard error on an unknown one), then coerce the literal according to the
declared column kind.  `canParseF64` stands in for `parse::<f32>`/`parse::<f64>`
(same grammar); parsed floats keep their source text (see header). -/
def ColumnDef.to_filter_condition (self : ColumnDef) (operator value : Str) :
    Except Str FilterCondition :=
  match registryOperator? operator with
  | none => .error ("Invalid operator: " ++ operator)
  | some op =>
    let is_null_check : Bool := decide (op = .IsNull ∨ op = .IsNotNull)
    match self with
    | .String name | .FixedString name =>
      .ok (.StringValue name op (if is_null_check then none else some value))
    | .UInt8 name =>
      if is_null_check then .ok (.UInt8Value name op none)
      else if op = .In ∨ op = .NotIn then
        .ok (.InValues name op ((splitString (Char.ofNat 44) value).map (fun v => trimString v)) (some .Numeric))
      else
        match parseU8? value with
        | some parsed => .ok (.UInt8Value name op (some parsed))
        | none => .error ("Invalid value for UInt8: " ++ value)
    | .UInt16 name =>
      if is_null_check then .ok (.UInt16Value name op none)
      else if op = .In ∨ op = .NotIn then
        .ok (.InValues name op ((splitString (Char.ofNat 44) value).map (fun v => trimString v)) (some .Numeric))
      else
        match parseU16? value with
        | some parsed => .ok (.UInt16Value name op (some parsed))
        | none => .error ("Invalid value for UInt16: " ++ value)
    | .UInt32 name =>
      if is_null_check then .ok (.UInt32Value name op none)
      else if op = .In ∨ op = .NotIn then
        .ok (.InValues name op ((splitString (Char.ofNat 44) value).map (fun v => trimString v)) (some .Numeric))
      else
        match parseU32? value with
        | some parsed => .ok (.UInt32Value name op (some parsed))
        | none => .error ("Invalid value for UInt32: " ++ value)
    | .UInt64 name =>
      if is_null_check then .ok (.UInt64Value name op none)
      else if op = .In ∨ op = .NotIn then
        .ok (.InValues name op ((splitString (Char.ofNat 44) value).map (fun v => trimString v)) (some .Numeric))
      else
        match parseU64? value with
        | some parsed => .ok (.UInt64Value name op (some parsed))
        | none => .error ("Invalid value for UInt64: " ++ value)
    | .Int8 name =>
      if is_null_check then .ok (.Int8Value name op none)
      else if op = .In ∨ op = .NotIn then
        .ok (.InValues name op ((splitString (Char.ofNat 44) value).map (fun v => trimString v)) (some .Numeric))
      else
        match parseI8? value with
        | some parsed => .ok (.Int8Value name op (some parsed))
        | none => .error ("Invalid value for Int8: " ++ value)
    | .Int16 name =>
      if is_null_check then .ok (.Int16Value name op none)
      else if op = .In ∨ op = .NotIn then
        .ok (.InValues name op ((splitString (Char.ofNat 44) value).map (fun v => trimString v)) (some .Numeric))
      else
        match parseI16? value with
        | some parsed => .ok (.Int16Value name op (some parsed))
        | none => .error ("Invalid value for Int16: " ++ value)
    | .Int32 name =>
      if is_null_check then .ok (.Int32Value name op none)
      else if op = .In ∨ op = .NotIn then
        .ok (.InValues name op ((splitString (Char.ofNat 44) value).map (fun v => trimString v)) (some .Numeric))
      else
        match parseI32? value with
        | some parsed => .ok (.Int32Value name op (some parsed))
        | none => .error ("Invalid value for Int32: " ++ value)
    | .Int64 name =>
      if is_null_check then .ok (.Int64Value name op none)
      else if op = .In ∨ op = .NotIn then
        .ok (.InValues name op ((splitString (Char.ofNat 44) value).map (fun v => trimString v)) (some .Numeric))
      else
        match parseI64? value with
        | some parsed => .ok (.Int64Value name op (some parsed))
        | none => .error ("Invalid value for Int64: " ++ value)
    | .Float32 name =>
      if is_null_check then .ok (.Float32Value name op none)
      else if canParseF64 value then .ok (.Float32Value name op (some value))
      else .error ("Invalid value for Float32: " ++ value)
    | .Float64 name =>
      if is_null_check then .ok (.Float64Value name op none)
      else if canParseF64 value then .ok (.Float64Value name op (some value))
      else .error ("Invalid value for Float64: " ++ value)
    | .Date name | .Date32 name =>
      if is_null_check then .ok (.DateValue name op none)
      else if op = .DateEqual then .ok (FilterCondition.date_only name value)
      else if op = .DateRange then
        match splitString (Char.ofNat 44) value with
        | [a, b] => .ok (FilterCondition.date_range name (trimString a) (trimString b))
        | _ => .error "DATE_RANGE requires two comma-separated values"
      else if op = .RelativeDate then .ok (FilterCondition.relative_date name value)
      else .ok (.DateValue name op (some value))
    | .DateTime name =>
      if is_null_check then .ok (.DateTimeValue name op none)
      else if op = .DateEqual then .ok (FilterCondition.date_only name value)
      else if op = .DateRange then
        match splitString (Char.ofNat 44) value with
        | [a, b] => .ok (FilterCondition.date_range name (trimString a) (trimString b))
        | _ => .error "DATE_RANGE requires two comma-separated values"
      else if op = .RelativeDate then .ok (FilterCondition.relative_date name value)
      else .ok (.DateTimeValue name op (some value))
    | .DateTime64 name =>
      if is_null_check then .ok (.DateTime64Value name op none)
      else if op = .DateEqual then .ok (FilterCondition.date_only name value)
      else if op = .DateRange then
        match splitString (Char.ofNat 44) value with
        | [a, b] => .ok (FilterCondition.date_range name (trimString a) (trimString b))
        | _ => .error "DATE_RANGE requires two comma-separated values"
      else if op = .RelativeDate then .ok (FilterCondition.relative_date name value)
      else .ok (.DateTime64Value name op (some value))
    | .Boolean name =>
      if is_null_check then .ok (.BooleanValue name op none)
      else
        match toLowerString value with
        | "true" | "1" | "yes" | "y" => .ok (.BooleanValue name op (some true))
        | "false" | "0" | "no" | "n" => .ok (.BooleanValue name op (some false))
        | _ => .error ("Invalid boolean value: " ++ value)
    | .UUID name =>
      if is_null_check then .ok (.UUIDValue name op none)
      else if op = .In ∨ op = .NotIn then
        .ok (.InValues name op ((splitString (Char.ofNat 44) value).map (fun v => trimString v)) (some .UUID))
      else .ok (.UUIDValue name op (some value))
    | .ArrayString name
    | .ArrayUInt8 name | .ArrayUInt16 name | .ArrayUInt32 name | .ArrayUInt64 name
    | .ArrayInt8 name | .ArrayInt16 name | .ArrayInt32 name | .ArrayInt64 name
    | .ArrayFloat32 name | .ArrayFloat64 name =>
      if op = .ArrayContains then .ok (.ArrayContains name op value)
      else if op = .ArrayHas then .ok (.ArrayHas name op value)
      else if is_null_check then .ok (.StringValue name op none)
      else .error ("Unsupported operator for array type: " ++ operator)
    | .JSON name =>
      let extracted : Option Str × Str :=
        if value.data.contains (Char.ofNat 46) ∧ ¬ is_null_check then
          match splitString (Char.ofNat 46) value with
          | p :: r :: rs => (some p, String.intercalate "." (r :: rs))
          | _ => (none, value)
        else (none, value)
      let json_path := extracted.1
      let json_value := extracted.2
      if is_null_check then .ok (.JSONValue name op none json_path)
      else .ok (.JSONValue name op (some json_value) json_path)
    | .Enum8 name | .Enum16 name =>
      if is_null_check then .ok (.StringValue name op none)
      else .ok (.StringValue name op (some value))
    | .IPv4 name | .IPv6 name =>
      if is_null_check then .ok (.StringValue name op none)
      else .ok (.StringValue name op (some value))
    | .Decimal name =>
      if is_null_check then .ok (.Float64Value name op none)
      else if canParseF64 value then .ok (.Float64Value name op (some value))
      else .error ("Invalid decimal value: " ++ value)
    | cd =>
      if is_null_check then .ok (.StringValue cd.get_column_name op none)
      else .ok (.StringValue cd.get_column_name op (some value))

/-- The loop state of `FilterBuilder::from_json_filters`: the builder, the
open run `(operator, expressions)`, and the previous connector. -/
structure GrouperState where
  builder : FilterBuilder
  current_group : Option (LogicalOperator × List FilterExpression)
  last_connector : Option LogicalOperator

/-- One iteration of the `for filter in filters` loop of
`FilterBuilder::from_json_filters`. -/
def grouperStep (column_defs : String → Option ColumnDef) (st : GrouperState)
    (filter : JsonFilter) : Except String GrouperState :=
  match column_defs filter.n with
  | none => .error ("Column not found: " ++ filter.n)
  | some column_def =>
    match column_def.to_filter_condition filter.f filter.v with
    | .error e => .error e
    | .ok condition =>
      let expression : FilterExpression := .Condition condition
      match filter.c with
      | some connector =>
        let op : LogicalOperator :=
          if toUpperString connector = "AND" then .And
          else if toUpperString connector = "OR" then .Or
          else .And
        match st.current_group with
        | none =>
          .ok { st with current_group := some (op, [expression]), last_connector := some op }
        | some (current_op, expressions) =>
          if current_op = op then
            .ok { st with current_group := some (current_op, expressions ++ [expression]),
                          last_connector := some op }
          else
            .ok { builder := st.builder.add_expression (.Group current_op expressions),
                  current_group := some (op, [expression]),
                  last_connector := some op }
      | none =>
        match st.current_group with
        | some (group_op, expressions) =>
          if st.last_connector.isSome then
            .ok { st with current_group := some (group_op, expressions ++ [expression]) }
          else
            .ok { st with builder := st.builder.add_expression expression }
        | none =>
          .ok { st with builder := st.builder.add_expression expression }

/-- The flush after the loop of `FilterBuilder::from_json_filters`: a
remaining run of more than one member becomes a group, a single member is
inlined. -/
def grouperFlush (st : GrouperState) : FilterBuilder :=
  match st.current_group with
  | some (op, expressions) =>
    if expressions.length > 1 then
      st.builder.add_expression (.Group op expressions)
    else
      match expressions.head? with
      | some expr => st.builder.add_expression expr
      | none => st.builder
  | none => st.builder

/-- `FilterBuilder::from_json_filters` from filtering.rs. -/
def FilterBuilder.from_json_filters (filters : List JsonFilter) (case_insensitive : Bool)
    (column_defs : String → Option ColumnDef) : Except String FilterBuilder :=
  if filters.isEmpty then
    .ok (FilterBuilder.new.with_case_insensitive case_insensitive)
  else
    match filters.foldlM (grouperStep column_defs)
        (GrouperState.mk (FilterBuilder.new.with_case_insensitive case_insensitive) none none) with
    | .error e => .error e
    | .ok st => .ok (grouperFlush st)

/-- `FilteringOptions` from mod.rs (`column_defs` as a lookup function). -/
structure FilteringOptions where
  expressions : List FilterExpression
  case_insensitive : Bool
  column_defs : String → Option ColumnDef

/-- `FilteringOptions::new`: case-insensitive by default. -/
def FilteringOptions.new (expressions : List FilterExpression)
    (column_defs : String → Option ColumnDef) : FilteringOptions :=
  ⟨expressions, true, column_defs⟩

/-- `FilteringOptions::case_sensitive`. -/
def FilteringOptions.case_sensitive (expressions : List FilterExpression)
    (column_defs : String → Option ColumnDef) : FilteringOptions :=
  ⟨expressions, false, column_defs⟩

/-- `Pagination` from pagination.rs. -/
structure Pagination where
  current_page : Int
  previous_page : Int
  next_page : Int
  total_pages : Int
  per_page : Int
  total_records : Int
deriving Repr, DecidableEq

/-- `Pagination::new`. -/
def Pagination.new (current_page per_page total_pages total_records : Int) : Pagination :=
  let previous_page := if current_page > 1 then current_page - 1 else 1
  let next_page :=
    if current_page < total_pages ∧ total_pages > 0 then current_page + 1
    else if current_page < total_pages then total_pages
    else current_page
  ⟨current_page, previous_page, next_page, total_pages, per_page, total_records⟩

/-- `Paginate` from pagination.rs. -/
structure Paginate where
  pagination : Pagination
  sql : String
deriving Repr, DecidableEq

/-- The integer nearest to `m`, ties to even (the IEEE-754 default rounding
applied to a scaled significand). -/
def nearestInt (m : ℚ) : Int :=
  if m - ⌊m⌋ < 1 / 2 then ⌊m⌋
  else if 1 / 2 < m - ⌊m⌋ then ⌊m⌋ + 1
  else if ⌊m⌋ % 2 = 0 then ⌊m⌋ else ⌊m⌋ + 1

/-- IEEE-754 binary64 rounding (round to nearest, ties to even) of a positive
rational in the normal finite range: the value is scaled by the unit in the
last place `2^(⌊log2 q⌋ - 52)` of its binade, the scaled significand is
rounded to the nearest integer (ties to even), and scaled back.  Exactly the
`f64` value Rust computes for every positive operand and exact result this
crate produces (all lie far inside the normal range, so overflow and
subnormals never arise). -/
def roundF64Pos (q : ℚ) : ℚ :=
  let ulp : ℚ := 2 ^ (Int.log 2 q - 52)
  (nearestInt (q / ulp) : ℚ) * ulp

/-- `(total_records as f64 / per_page as f64).ceil() as i64` for positive
arguments: both integers are rounded to `f64`, the division result is rounded
to `f64`, `f64::ceil` is exact (its result is always representable), and the
`as i64` cast saturates at `i64::MAX` (the operands are positive, so the
negative bound never binds). -/
def f64CeilDiv (a b : Int) : Int :=
  let c : Int := ⌈roundF64Pos (roundF64Pos (a : ℚ) / roundF64Pos (b : ℚ))⌉
  if c > 2 ^ 63 - 1 then 2 ^ 63 - 1 else c

/-- Two's-complement wrap-around into the `i64` range, the release-mode Rust
semantics of overflowing `i64` arithmetic (debug builds panic instead). -/
def wrapI64 (z : Int) : Int := (z + 2 ^ 63) % 2 ^ 64 - 2 ^ 63

/-- The `per_page_limit`/`per_page` validation steps at the head of
`Paginate::new` (pagination.rs): default the limit to 10 when non-positive,
cap `per_page` at the limit, then default `per_page` to 10 when non-positive. -/
def paginatePerPage (per_page per_page_limit : Int) : Int :=
  let per_page_limit := if per_page_limit > 0 then per_page_limit else 10
  let per_page := if per_page > per_page_limit then per_page_limit else per_page
  if per_page > 0 then per_page else 10

/-- The `current_page` validation steps of `Paginate::new`: raise to 1 when
below 1, cap at `total_pages` only when `total_pages > 0`. -/
def paginateCurrentPage (current_page total_pages : Int) : Int :=
  let current_page := if current_page < 1 then 1 else current_page
  if current_page > total_pages ∧ total_pages > 0 then total_pages else current_page

/-- `Paginate::new` from pagination.rs, with the sequential `let` validation
steps of the source factored into the two helpers above. -/
def Paginate.new (current_page per_page per_page_limit total_records : Int) : Paginate :=
  let per_page := paginatePerPage per_page per_page_limit
  let total_records := if total_records > 0 then total_records else 0
  let total_pages := if total_records > 0 then f64CeilDiv total_records per_page else 0
  let current_page := paginateCurrentPage current_page total_pages
  let limit := per_page
  -- `(limit * current_page) - limit`: Rust wraps each i64 operation; wrapping
  -- the whole expression once is the same value (congruent mod 2^64).
  let offset := wrapI64 (limit * current_page - limit)
  let pagination := Pagination.new current_page per_page total_pages total_records
  let sql := "LIMIT " ++ toString limit ++ " OFFSET " ++ toString offset
  ⟨pagination, sql⟩

/-- `SortOrder` from sorting.rs. -/
inductive SortOrder
  | Asc
  | Desc
deriving Repr, DecidableEq

/-- `SortedColumn` from sorting.rs. -/
structure SortedColumn where
  column : String
  order : SortOrder
deriving Repr, DecidableEq

/-- `SortedColumn::new`: unknown directions default to ascending. -/
def SortedColumn.new (column order : String) : SortedColumn :=
  let ord : SortOrder :=
    if toLowerString order = "asc" then .Asc
    else if toLowerString order = "desc" then .Desc
    else .Asc
  ⟨column, ord⟩

/-- The comparison `a.column.cmp(&b.column)` used by `Sorting::new`'s
`sort_by`, as a `≤` relation.  Rust compares strings by UTF-8 bytes, which on
valid UTF-8 is exactly the lexicographic order on the code-point lists. -/
def sortedColumnLe (a b : SortedColumn) : Prop := a.column.data ≤ b.column.data

instance : DecidableRel sortedColumnLe :=
  fun a b => inferInstanceAs (Decidable (a.column.data ≤ b.column.data))

instance : IsTotal SortedColumn sortedColumnLe :=
  ⟨fun a b => le_total a.column.data b.column.data⟩

instance : IsTrans SortedColumn sortedColumnLe :=
  ⟨fun _ _ _ h1 h2 => le_trans h1 h2⟩

/-- The tail of Rust `Vec::dedup_by(|a, b| a.column == b.column)`: `prev` is
the last retained element; the next element is dropped when its column name
equals `prev`'s, otherwise it is retained and becomes the new `prev`. -/
def dedupTail (prev : SortedColumn) : List SortedColumn → List SortedColumn
  | [] => []
  | y :: rest =>
    if prev.column = y.column then dedupTail prev rest
    else y :: dedupTail y rest

/-- Rust `Vec::dedup_by(|a, b| a.column == b.column)`: of every run of
consecutive elements with equal column names, only the first survives. -/
def dedupByColumn : List SortedColumn → List SortedColumn
  | [] => []
  | x :: rest => x :: dedupTail x rest

/-- `Sorting` from sorting.rs. -/
structure Sorting where
  columns : List SortedColumn
  sql : String
deriving Repr, DecidableEq

/-- `Sorting::new` from sorting.rs: `sort_by` on the column name (a stable
sort, modelled by insertion sort, which produces the same list as any stable
sort for a total comparison), then `dedup_by` on the column name, then the
`ORDER BY` rendering loop (an intercalation with `", "`). -/
def Sorting.new (columns : List SortedColumn) : Sorting :=
  let columns := dedupByColumn (List.insertionSort sortedColumnLe columns)
  let body := String.intercalate ", " (columns.map (fun column =>
    match column.order with
    | .Asc => column.column ++ " ASC"
    | .Desc => column.column ++ " DESC"))
  let sql := if columns.isEmpty then "" else " ORDER BY " ++ body
  ⟨columns, sql⟩

/-- A two-column registry (an unsigned-integer `age` and a Boolean `active`),
the shape used by the crate's own grouper tests. -/
def exampleRegistry : String → Option ColumnDef := fun s =>
  if s = "age" then some (.UInt32 "age")
  else if s = "active" then some (.Boolean "active")
  else none

/-- `FilterBuilder::from_json_filters` followed by `FilterBuilder::build`,
propagating the first error. -/
def buildFromJsonFilters (filters : List JsonFilter) (case_insensitive : Bool)
    (column_defs : String → Option ColumnDef) : Except String String :=
  match FilterBuilder.from_json_filters filters case_insensitive column_defs with
  | .ok b => b.build
  | .error e => .error e

/-- The operator symbols recognized by `ColumnDef::to_filter_condition`
(the union of both entry points' tables; `parse_operator` knows all of them
except `NOT LIKE`). -/
def recognizedOperatorSymbols : List String :=
  ["=", "!=", ">", ">=", "<", "<=", "LIKE", "NOT LIKE", "IN", "NOT IN", "IS NULL",
   "IS NOT NULL", "STARTS WITH", "ENDS WITH", "ARRAY CONTAINS", "ARRAY HAS",
   "DATE_ONLY", "DATE_RANGE", "RELATIVE"]

/-- The nearest integer is within a half. -/
theorem nearestInt_err (m : ℚ) : |(nearestInt m : ℚ) - m| ≤ 1 / 2 := by
  have h1 := Int.floor_le m
  have h2 := Int.lt_floor_add_one m
  unfold nearestInt
  split_ifs with ha hb hc <;>
    (rw [abs_le]; constructor <;> push_cast <;> linarith)

/-- `nearestInt` is at least as close to `m` as any integer. -/
theorem nearestInt_nearest (m : ℚ) (j : ℤ) :
    |(nearestInt m : ℚ) - m| ≤ |(j : ℚ) - m| := by
  have h1 := Int.floor_le m
  have h2 := Int.lt_floor_add_one m
  have hj : (j : ℚ) ≤ (⌊m⌋ : ℚ) ∨ ((⌊m⌋ : ℚ) + 1) ≤ (j : ℚ) := by
    rcases le_or_lt j ⌊m⌋ with h | h
    · exact Or.inl (by exact_mod_cast h)
    · exact Or.inr (by exact_mod_cast h)
  have hjlb : min (m - ⌊m⌋) ((⌊m⌋ : ℚ) + 1 - m) ≤ |(j : ℚ) - m| := by
    rcases hj with h | h
    · calc min (m - ⌊m⌋) ((⌊m⌋ : ℚ) + 1 - m) ≤ m - ⌊m⌋ := min_le_left _ _
        _ ≤ m - j := by linarith
        _ ≤ |(j : ℚ) - m| := by rw [abs_sub_comm]; exact le_abs_self _
    · calc min (m - ⌊m⌋) ((⌊m⌋ : ℚ) + 1 - m) ≤ (⌊m⌋ : ℚ) + 1 - m := min_le_right _ _
        _ ≤ (j : ℚ) - m := by linarith
        _ ≤ |(j : ℚ) - m| := le_abs_self _
  refine le_trans ?_ hjlb
  unfold nearestInt
  split_ifs with ha hb hc <;>
    (rw [abs_le]; constructor <;>
      · push_cast
        rcases le_total (m - ⌊m⌋) ((⌊m⌋ : ℚ) + 1 - m) with hmn | hmn <;>
          simp only [min_eq_left hmn, min_eq_right hmn] <;> linarith)

/-- Binary64 rounding moves a value by at most half an ulp of its binade. -/
theorem roundF64Pos_err (q : ℚ) :
    |roundF64Pos q - q| ≤ 2 ^ (Int.log 2 q - 53) := by
  unfold roundF64Pos
  set u : ℚ := 2 ^ (Int.log 2 q - 52) with hu
  have hupos : (0 : ℚ) < u := by rw [hu]; positivity
  have hkey : (nearestInt (q / u) : ℚ) * u - q = ((nearestInt (q / u) : ℚ) - q / u) * u := by
    field_simp
  rw [hkey, abs_mul, abs_of_pos hupos]
  have h := nearestInt_err (q / u)
  have hhalf : (2 : ℚ) ^ (Int.log 2 q - 53) = (1 / 2) * u := by
    rw [hu]
    rw [show Int.log 2 q - 53 = (Int.log 2 q - 52) + (-1) by ring, zpow_add₀ (by norm_num)]
    norm_num
    ring
  rw [hhalf]
  exact mul_le_mul_of_nonneg_right h hupos.le

/-- Binary64 rounding is at least as close as any multiple of the ulp. -/
theorem roundF64Pos_nearest (q : ℚ) (j : ℤ) :
    |roundF64Pos q - q| ≤ |(j : ℚ) * 2 ^ (Int.log 2 q - 52) - q| := by
  unfold roundF64Pos
  set u : ℚ := 2 ^ (Int.log 2 q - 52) with hu
  have hupos : (0 : ℚ) < u := by rw [hu]; positivity
  have hkey : ∀ z : ℚ, z * u - q = (z - q / u) * u := by
    intro z; field_simp
  rw [hkey, hkey, abs_mul, abs_mul, abs_of_pos hupos]
  exact mul_le_mul_of_nonneg_right (nearestInt_nearest (q / u) j) hupos.le

/-- A value that is an integer multiple of its own ulp (a representable
double) is left unchanged by rounding. -/
theorem roundF64Pos_eq_self (q : ℚ)
    (h : ∃ n : ℤ, q = (n : ℚ) * 2 ^ (Int.log 2 q - 52)) : roundF64Pos q = q := by
  obtain ⟨n, hn⟩ := h
  unfold roundF64Pos
  set u : ℚ := 2 ^ (Int.log 2 q - 52) with hu
  have hupos : (0 : ℚ) < u := by rw [hu]; positivity
  show (nearestInt (q / u) : ℚ) * u = q
  have hm : q / u = (n : ℚ) := by
    rw [hn]; field_simp
  rw [hm]
  have : nearestInt (n : ℚ) = n := by
    unfold nearestInt
    rw [Int.floor_intCast]
    simp
  rw [this, ← hn]

/-- Integers below `2^53` are exactly representable as doubles. -/
theorem roundF64Pos_intCast (n : ℤ) (h0 : 0 < n) (h53 : n < 2 ^ 53) :
    roundF64Pos (n : ℚ) = n := by
  apply roundF64Pos_eq_self
  set e := Int.log 2 (n : ℚ) with he
  have hq0 : (0 : ℚ) < (n : ℚ) := by exact_mod_cast h0
  have he53 : e < 53 := by
    rw [he]
    apply (Int.lt_zpow_iff_log_lt (by norm_num) hq0).1
    have h2 : ((2 : ℕ) : ℚ) ^ (53 : ℤ) = ((2 ^ 53 : ℤ) : ℚ) := by norm_num
    rw [h2]
    exact_mod_cast h53
  refine ⟨n * 2 ^ (52 - e).toNat, ?_⟩
  push_cast
  rw [← zpow_natCast (2 : ℚ) (52 - e).toNat, Int.toNat_of_nonneg (by omega : (0:ℤ) ≤ 52 - e)]
  rw [mul_assoc, ← zpow_add₀ (by norm_num : (2 : ℚ) ≠ 0)]
  have hz : (52 : ℤ) - e + (e - 52) = 0 := by ring
  rw [hz, zpow_zero, mul_one]

/-- The `f64` ceiling division agrees with the exact rational ceiling while
both operands are below `2^53`: the operands convert exactly, the rounded
quotient stays strictly between the floor and the ceiling of the exact
quotient (the quotient's rounding error, at most half an ulp, is smaller
than the distance `(a - k*b)/b` to the integer below), and no saturation
occurs.  Beyond `2^53` the `f64` rounding genuinely diverges from the exact
ceiling (for example `2^53 + 1` over `1`). -/
theorem f64CeilDiv_eq_ceil (a b : Int) (ha : 0 < a) (ha53 : a < 2 ^ 53)
    (hb : 0 < b) (hb53 : b < 2 ^ 53) :
    f64CeilDiv a b = ⌈(a : ℚ) / (b : ℚ)⌉ := by
  simp only [f64CeilDiv]
  rw [roundF64Pos_intCast a ha ha53, roundF64Pos_intCast b hb hb53]
  set d : ℚ := (a : ℚ) / (b : ℚ) with hd
  have hQa : (0 : ℚ) < (a : ℚ) := by exact_mod_cast ha
  have hQb : (0 : ℚ) < (b : ℚ) := by exact_mod_cast hb
  have hd0 : 0 < d := div_pos hQa hQb
  set e := Int.log 2 d with he
  have hlow : (2 : ℚ) ^ e ≤ d := by
    have h := Int.zpow_log_le_self (b := 2) (by norm_num) hd0
    rw [he]; exact_mod_cast h
  have hda : d ≤ (a : ℚ) := by
    rw [hd]
    apply div_le_self hQa.le
    exact_mod_cast (by omega : (1 : ℤ) ≤ b)
  have haQ : (a : ℚ) < ((2 : ℕ) : ℚ) ^ (53 : ℤ) := by
    have h2 : (((2 : ℕ) : ℚ)) ^ (53 : ℤ) = ((2 ^ 53 : ℤ) : ℚ) := by norm_num
    rw [h2]; exact_mod_cast ha53
  have he52 : e ≤ 52 := by
    have h := (Int.lt_zpow_iff_log_lt (b := 2) (by norm_num) hd0).1
      (lt_of_le_of_lt hda haQ)
    rw [he]; omega
  have hceil_le : ⌈d⌉ ≤ a := by
    calc ⌈d⌉ ≤ ⌈(a : ℚ)⌉ := Int.ceil_le_ceil hda
      _ = a := Int.ceil_intCast a
  by_cases hint : ∃ k : ℤ, d = (k : ℚ)
  · obtain ⟨k, hk⟩ := hint
    have hk0 : 0 < k := by exact_mod_cast hk ▸ hd0
    have hk53 : k < 2 ^ 53 := by
      have h1 : (k : ℚ) < ((2 : ℕ) : ℚ) ^ (53 : ℤ) := hk ▸ lt_of_le_of_lt hda haQ
      have h2 : (((2 : ℕ) : ℚ)) ^ (53 : ℤ) = ((2 ^ 53 : ℤ) : ℚ) := by norm_num
      rw [h2] at h1; exact_mod_cast h1
    have hka : k ≤ a := by
      have : ⌈d⌉ = k := by rw [hk, Int.ceil_intCast]
      omega
    rw [hk, roundF64Pos_intCast k hk0 hk53, Int.ceil_intCast]
    rw [if_neg (by omega)]
  · set k := ⌊d⌋ with hkdef
    have hk0 : 0 ≤ k := Int.floor_nonneg.2 hd0.le
    have hdk : (k : ℚ) < d := lt_of_le_of_ne (Int.floor_le d) (fun h => hint ⟨k, h.symm⟩)
    have hdk1 : d < (k : ℚ) + 1 := Int.lt_floor_add_one d
    have hceil : ⌈d⌉ = k + 1 := by
      rw [Int.ceil_eq_iff]
      constructor
      · push_cast; linarith
      · push_cast; linarith
    have hub : roundF64Pos d ≤ (k : ℚ) + 1 := by
      have hj := roundF64Pos_nearest d ((k + 1) * 2 ^ (52 - e).toNat)
      rw [← he] at hj
      have hrepr : (((k + 1) * 2 ^ (52 - e).toNat : ℤ) : ℚ) * (2 : ℚ) ^ (e - 52) =
          (k : ℚ) + 1 := by
        push_cast
        rw [← zpow_natCast (2 : ℚ) (52 - e).toNat,
          Int.toNat_of_nonneg (by omega : (0 : ℤ) ≤ 52 - e)]
        rw [mul_assoc, ← zpow_add₀ (by norm_num : (2 : ℚ) ≠ 0)]
        have hz : (52 : ℤ) - e + (e - 52) = 0 := by ring
        rw [hz, zpow_zero, mul_one]
      rw [hrepr] at hj
      have habs : |(k : ℚ) + 1 - d| = (k : ℚ) + 1 - d := abs_of_pos (by linarith)
      rw [habs] at hj
      have h1 : roundF64Pos d - d ≤ (k : ℚ) + 1 - d := le_trans (le_abs_self _) hj
      linarith
    have herr := roundF64Pos_err d
    rw [← he] at herr
    have hlb : (k : ℚ) < roundF64Pos d := by
      have hgap : (2 : ℚ) ^ (e - 53) < d - k := by
        rcases eq_or_lt_of_le hk0 with hk00 | hk1
        · rw [← hk00]
          push_cast
          have hmono : (2 : ℚ) ^ (e - 53) < (2 : ℚ) ^ e :=
            zpow_lt_zpow_right₀ (by norm_num : (1 : ℚ) < 2) (by omega)
          linarith
        · have hkb : k * b < a := by
            have hq : (k : ℚ) * b < a := by
              have h := mul_lt_mul_of_pos_right hdk hQb
              rw [hd, div_mul_cancel₀ _ (ne_of_gt hQb)] at h
              exact h
            exact_mod_cast hq
          have hab1 : (1 : ℤ) ≤ a - k * b := by omega
          have hd_k : d - k = ((a - k * b : ℤ) : ℚ) / b := by
            rw [hd]; push_cast; field_simp; ring
          have hge : (1 : ℚ) / b ≤ d - k := by
            rw [hd_k]
            gcongr
            exact_mod_cast hab1
          have hbe : (b : ℚ) * 2 ^ e ≤ a := by
            have h := mul_le_mul_of_nonneg_right hlow hQb.le
            rw [hd, div_mul_cancel₀ _ (ne_of_gt hQb)] at h
            linarith
          have hblt : (b : ℚ) < 2 ^ ((53 : ℤ) - e) := by
            have h2e : (0 : ℚ) < (2 : ℚ) ^ e := by positivity
            have h1 : (b : ℚ) * 2 ^ e < (2 : ℚ) ^ (53 : ℤ) := by
              have h53 : (((2 : ℕ) : ℚ)) ^ (53 : ℤ) = (2 : ℚ) ^ (53 : ℤ) := by norm_num
              calc (b : ℚ) * 2 ^ e ≤ a := hbe
                _ < ((2 : ℕ) : ℚ) ^ (53 : ℤ) := haQ
                _ = (2 : ℚ) ^ (53 : ℤ) := h53
            calc (b : ℚ) = (b : ℚ) * 2 ^ e / 2 ^ e := by field_simp
              _ < (2 : ℚ) ^ (53 : ℤ) / 2 ^ e := by gcongr
              _ = 2 ^ ((53 : ℤ) - e) := by
                  rw [← zpow_sub₀ (by norm_num : (2 : ℚ) ≠ 0)]
          have hfin : (2 : ℚ) ^ (e - 53) < 1 / b := by
            rw [lt_div_iff₀ hQb]
            have h := mul_lt_mul_of_pos_left hblt
              (show (0 : ℚ) < (2 : ℚ) ^ (e - 53) by positivity)
            rw [← zpow_add₀ (by norm_num : (2 : ℚ) ≠ 0)] at h
            have hz : e - 53 + ((53 : ℤ) - e) = 0 := by ring
            rw [hz, zpow_zero] at h
            linarith
          linarith
      have h1 : d - roundF64Pos d ≤ (2 : ℚ) ^ (e - 53) := by
        have h2 : |d - roundF64Pos d| ≤ (2 : ℚ) ^ (e - 53) := by
          rwa [abs_sub_comm] at herr
        exact le_trans (le_abs_self _) h2
      linarith
    have hceilr : ⌈roundF64Pos d⌉ = k + 1 := by
      rw [Int.ceil_eq_iff]
      constructor
      · push_cast; linarith
      · push_cast; linarith
    have hka : k + 1 ≤ a := by omega
    rw [hceilr, if_neg (by omega), hceil]

/-- Wrapping arithmetic is the identity inside the `i64` range. -/
theorem wrapI64_eq_self {z : Int} (h1 : -(2 ^ 63) ≤ z) (h2 : z < 2 ^ 63) : wrapI64 z = z := by
  unfold wrapI64; omega

/-- The validated current page is at least 1. -/
theorem paginateCurrentPage_ge_one (x y : Int) : 1 ≤ paginateCurrentPage x y := by
  simp only [paginateCurrentPage]; split_ifs <;> omega

/-- C2 (amended): `Paginate::new` clamps `per_page` to `min per_page limit`
(the limit defaulted to 10 when non-positive) for positive input and
substitutes 10 for non-positive input; `total_pages` is 0 for non-positive
`total_records` and equals the exact ceiling of `total_records / per_page`
whenever `total_records` and the effective `per_page` are below `2^53` (the
range where the source's `f64` division is exact; beyond it the `f64`
rounding can differ); `current_page` is clamped into `[1, total_pages]` when
`total_pages > 0`, but when `total_pages = 0` it is only raised to
`max current_page 1` (not forced to 1); and whenever
`per_page * current_page` fits in `i64` the SQL is
`"LIMIT {per_page} OFFSET {per_page * (current_page - 1)}"` (the `i64`
offset arithmetic wraps outside that range). -/
theorem paginate_new_characterization
    (current_page per_page per_page_limit total_records : Int) :
    (per_page > 0 →
      (Paginate.new current_page per_page per_page_limit total_records).pagination.per_page =
        min per_page (if per_page_limit > 0 then per_page_limit else 10) ∧
      0 < (Paginate.new current_page per_page per_page_limit total_records).pagination.per_page ∧
      (Paginate.new current_page per_page per_page_limit total_records).pagination.per_page ≤
        (if per_page_limit > 0 then per_page_limit else 10)) ∧
    (per_page ≤ 0 →
      (Paginate.new current_page per_page per_page_limit total_records).pagination.per_page = 10) ∧
    (total_records ≤ 0 →
      (Paginate.new current_page per_page per_page_limit total_records).pagination.total_pages = 0) ∧
    (total_records > 0 → total_records < 2 ^ 53 →
      (Paginate.new current_page per_page per_page_limit total_records).pagination.per_page <
        2 ^ 53 →
      (Paginate.new current_page per_page per_page_limit total_records).pagination.total_pages =
        ⌈(total_records : ℚ) /
          ((Paginate.new current_page per_page per_page_limit total_records).pagination.per_page :
            ℚ)⌉) ∧
    (0 < (Paginate.new current_page per_page per_page_limit total_records).pagination.total_pages →
      1 ≤ (Paginate.new current_page per_page per_page_limit total_records).pagination.current_page ∧
      (Paginate.new current_page per_page per_page_limit total_records).pagination.current_page ≤
        (Paginate.new current_page per_page per_page_limit total_records).pagination.total_pages) ∧
    ((Paginate.new current_page per_page per_page_limit total_records).pagination.total_pages = 0 →
      (Paginate.new current_page per_page per_page_limit total_records).pagination.current_page =
        max current_page 1) ∧
    ((Paginate.new current_page per_page per_page_limit total_records).pagination.per_page *
        (Paginate.new current_page per_page per_page_limit total_records).pagination.current_page ≤
        2 ^ 63 - 1 →
      (Paginate.new current_page per_page per_page_limit total_records).sql =
        "LIMIT " ++
          toString
            (Paginate.new current_page per_page per_page_limit total_records).pagination.per_page ++
        " OFFSET " ++
          toString
            ((Paginate.new current_page per_page per_page_limit total_records).pagination.per_page *
              ((Paginate.new current_page per_page per_page_limit
                  total_records).pagination.current_page - 1))) := by
  have hp_pos : 0 < paginatePerPage per_page per_page_limit := by
    simp only [paginatePerPage]; split_ifs <;> omega
  refine ⟨?_, ?_, ?_, ?_, ?_, ?_, ?_⟩
  · intro h
    simp only [Paginate.new, Pagination.new, paginatePerPage]
    refine ⟨?_, ?_, ?_⟩ <;> (split_ifs <;> omega)
  · intro h
    simp only [Paginate.new, Pagination.new, paginatePerPage]
    split_ifs <;> omega
  · intro h
    simp only [Paginate.new, Pagination.new]
    split_ifs <;> omega
  · intro h h53 hp53
    simp only [Paginate.new, Pagination.new] at hp53 ⊢
    split_ifs
    exact f64CeilDiv_eq_ceil _ _ (by omega) (by omega) hp_pos hp53
  · intro h
    simp only [Paginate.new, Pagination.new, paginateCurrentPage] at h ⊢
    constructor <;> (split_ifs at h ⊢ <;> omega)
  · intro h
    simp only [Paginate.new, Pagination.new, paginateCurrentPage] at h ⊢
    split_ifs at h ⊢ <;> omega
  · intro hov
    simp only [Paginate.new, Pagination.new] at hov ⊢
    set p := paginatePerPage per_page per_page_limit with hp
    set c := paginateCurrentPage current_page
      (if (if total_records > 0 then total_records else 0) > 0 then
        f64CeilDiv (if total_records > 0 then total_records else 0) p
      else 0) with hc
    have hc1 : 1 ≤ c := paginateCurrentPage_ge_one _ _
    have hnn : 0 ≤ p * (c - 1) := mul_nonneg (by omega) (by omega)
    have hpc : p * c - p = p * (c - 1) := by ring
    have hwrap : wrapI64 (p * c - p) = p * c - p := by
      apply wrapI64_eq_self
      · rw [hpc]; linarith
      · omega
    rw [hwrap, hpc]

/-- Witness for C2 at the crate's own clamping example
`Paginate::new(101, 10, 10, 1000)`: per-page clamp, current-page bounds and
the emitted SQL, with every hypothesis discharged concretely. -/
theorem paginate_new_characterization_witness :
    (Paginate.new 101 10 10 1000).pagination.per_page =
      min 10 (if (10 : Int) > 0 then 10 else 10) ∧
    (1 ≤ (Paginate.new 101 10 10 1000).pagination.current_page ∧
      (Paginate.new 101 10 10 1000).pagination.current_page ≤
        (Paginate.new 101 10 10 1000).pagination.total_pages) ∧
    (Paginate.new 101 10 10 1000).sql =
      "LIMIT " ++ toString (Paginate.new 101 10 10 1000).pagination.per_page ++
      " OFFSET " ++ toString ((Paginate.new 101 10 10 1000).pagination.per_page *
        ((Paginate.new 101 10 10 1000).pagination.current_page - 1)) := by
  have h := paginate_new_characterization 101 10 10 1000
  have hpp : (Paginate.new 101 10 10 1000).pagination.per_page = 10 := rfl
  have h4 := h.2.2.2.1 (by decide) (by decide) (by rw [hpp]; decide)
  have htp : (Paginate.new 101 10 10 1000).pagination.total_pages = 100 := by
    rw [h4, hpp]
    have hq : ((1000 : Int) : ℚ) / ((10 : Int) : ℚ) = ((100 : Int) : ℚ) := by norm_num
    rw [hq, Int.ceil_intCast]
  have hcp0 : (Paginate.new 101 10 10 1000).pagination.current_page =
      paginateCurrentPage 101 (Paginate.new 101 10 10 1000).pagination.total_pages := rfl
  rw [htp] at hcp0
  have hcp : (Paginate.new 101 10 10 1000).pagination.current_page = 100 := by
    rw [hcp0]; decide
  refine ⟨(h.1 (by decide)).1, h.2.2.2.2.1 (by rw [htp]; decide), ?_⟩
  exact h.2.2.2.2.2.2 (by rw [hpp, hcp]; decide)

/-- C9: `FilteringOptions::new` always sets `case_insensitive` to `true` and
stores the given expressions and column definitions unchanged; the separate
constructor `FilteringOptions::case_sensitive` yields `case_insensitive = false`. -/
theorem filtering_options_new_defaults (expressions : List FilterExpression)
    (column_defs : String → Option ColumnDef) :
    (FilteringOptions.new expressions column_defs).case_insensitive = true ∧
    (FilteringOptions.new expressions column_defs).expressions = expressions ∧
    (FilteringOptions.new expressions column_defs).column_defs = column_defs ∧
    (FilteringOptions.case_sensitive expressions column_defs).case_insensitive = false :=
  ⟨rfl, rfl, rfl, rfl⟩

/-- C5: with a registry mapping `age` to an unsigned-integer kind and `active`
to the Boolean kind, the flat-filter grouper followed by `build`
(case-sensitive) compiles `[(age,>,25,AND), (active,=,1,-)]` to exactly
`" WHERE (age > 25 AND active = 1)"` and `[(age,<,25,OR), (active,=,0,-)]` to
exactly `" WHERE (age < 25 OR active = 0)"`. -/
theorem grouper_flat_filter_examples :
    buildFromJsonFilters
      [⟨"age", ">", "25", some "AND"⟩, ⟨"active", "=", "1", none⟩] false exampleRegistry =
      .ok " WHERE (age > 25 AND active = 1)" ∧
    buildFromJsonFilters
      [⟨"age", "<", "25", some "OR"⟩, ⟨"active", "=", "0", none⟩] false exampleRegistry =
      .ok " WHERE (age < 25 OR active = 0)" :=
  ⟨rfl, rfl⟩

/-- C10: `FilterBuilder::build` never leaves a dangling `" WHERE "`: an absent
root gives the empty string, and a root whose rendered SQL is empty also gives
the empty string; otherwise the result is `" WHERE "` followed by the root's
SQL. -/
theorem filter_builder_build_no_dangling_where (b : FilterBuilder) :
    (b.root = none → b.build = .ok "") ∧
    (∀ e s, b.root = some e → e.to_sql b.case_insensitive = .ok s →
      b.build = if s = "" then .ok "" else .ok (" WHERE " ++ s)) := by
  constructor
  · intro h; simp [FilterBuilder.build, h]
  · intro e s h1 h2; simp [FilterBuilder.build, h1, h2]

/-- Witness for C10 at a builder with a Boolean condition root and at a
builder whose root is an empty group (which renders to the empty string). -/
theorem filter_builder_build_no_dangling_where_witness :
    (FilterBuilder.mk (some (.Condition (.BooleanValue "active" .Equal (some true)))) false).build =
      .ok " WHERE active = 1" ∧
    (FilterBuilder.mk (some (.Group .And [])) false).build = .ok "" := by
  constructor
  · have h := (filter_builder_build_no_dangling_where
      ⟨some (.Condition (.BooleanValue "active" .Equal (some true))), false⟩).2
      (.Condition (.BooleanValue "active" .Equal (some true))) "active = 1" rfl rfl
    simpa using h
  · have h := (filter_builder_build_no_dangling_where
      ⟨some (.Group .And []), false⟩).2 (.Group .And []) "" rfl rfl
    simpa using h

/-- C1 (amended): an empty `Group` renders to the empty string, but an
empty-group child of a non-empty group is not elided: its empty rendering
still participates in the join, so `AND(empty_group, e)` renders to
`"( AND " ++ sql(e) ++ ")"` — with a dangling connector — rather than to
`sql(e)` alone. -/
theorem empty_group_renders_empty_and_joins_with_connector (ci : Bool) :
    (∀ op : LogicalOperator, FilterExpression.to_sql (.Group op []) ci = .ok "") ∧
    (∀ (e : FilterExpression) (s : String), e.to_sql ci = .ok s →
      FilterExpression.to_sql (.Group .And [.Group .And [], e]) ci =
        .ok ("( AND " ++ s ++ ")")) := by
  constructor
  · intro op; rfl
  · intro e s h
    have hall : FilterExpression.to_sqlAll [.Group .And [], e] ci = .ok ["", s] := by
      simp [FilterExpression.to_sqlAll, FilterExpression.to_sql, h]
    simp only [FilterExpression.to_sql, List.isEmpty_cons, hall]
    apply congrArg Except.ok
    apply String.ext
    simp [String.data_append, String.intercalate, String.intercalate.go,
      LogicalOperator.as_sql]

/-- Witness for C1 at a Boolean condition sibling. -/
theorem empty_group_join_witness :
    FilterExpression.to_sql
      (.Group .And [.Group .And [], .Condition (.BooleanValue "active" .Equal (some true))])
      false = .ok ("( AND " ++ "active = 1" ++ ")") :=
  (empty_group_renders_empty_and_joins_with_connector false).2
    (.Condition (.BooleanValue "active" .Equal (some true))) "active = 1" rfl

/-- Counterexample to C1 as stated: the parent of an empty group renders
`"( AND active = 1)"`, which is not the sibling's rendering `"active = 1"` —
the empty child is not elided and the connector dangles. -/
theorem empty_group_child_leaves_dangling_connector :
    FilterExpression.to_sql
      (.Group .And [.Group .And [], .Condition (.BooleanValue "active" .Equal (some true))])
      false = .ok "( AND active = 1)" ∧
    FilterExpression.to_sql (.Condition (.BooleanValue "active" .Equal (some true))) false =
      .ok "active = 1" ∧
    ("( AND active = 1)" : String) ≠ "active = 1" :=
  ⟨rfl, rfl, by decide⟩

/-- Counterexample to C2 as stated: with zero records (`total_pages = 0`) the
code keeps `current_page = 5` instead of clamping it to 1, and the offset is
computed from the unclamped page. -/
theorem paginate_current_page_not_clamped_when_no_pages :
    (Paginate.new 5 10 10 0).pagination.total_pages = 0 ∧
    (Paginate.new 5 10 10 0).pagination.current_page = 5 ∧
    (Paginate.new 5 10 10 0).sql = "LIMIT 10 OFFSET 40" ∧
    (5 : Int) ≠ 1 :=
  ⟨rfl, rfl, rfl, by decide⟩

/-- C3: for every operator string whose upper-casing is outside the
recognized symbol set, the free function `parse_operator` silently falls back
to `Equal`, while `ColumnDef::to_filter_condition` (the registry path used by
the flat-filter grouper) returns a hard error for the same string, whatever
the column kind — the two entry points disagree on unknown-operator policy. -/
theorem unknown_operator_policy_disagreement (op : String) (cd : ColumnDef) (v : String)
    (h : toUpperString op ∉ recognizedOperatorSymbols) :
    parse_operator op = .Equal ∧
    cd.to_filter_condition op v = .error ("Invalid operator: " ++ op) := by
  simp only [recognizedOperatorSymbols, List.mem_cons, List.not_mem_nil, or_false,
    not_or] at h
  obtain ⟨h1, h2, h3, h4, h5, h6, h7, h8, h9, h10, h11, h12, h13, h14, h15, h16, h17,
    h18, h19⟩ := h
  constructor
  · simp [parse_operator, h1, h2, h3, h4, h5, h6, h7, h8, h9, h10, h11, h12, h13, h14,
      h15, h16, h17, h18, h19]
  · simp [ColumnDef.to_filter_condition, registryOperator?, h1, h2, h3, h4, h5, h6, h7,
      h8, h9, h10, h11, h12, h13, h14, h15, h16, h17, h18, h19]

/-- Witness for C3 at the unknown symbol `"FOO"` against a string column. -/
theorem unknown_operator_policy_disagreement_witness :
    parse_operator "FOO" = .Equal ∧
    (ColumnDef.String "name").to_filter_condition "FOO" "x" =
      .error ("Invalid operator: " ++ "FOO") :=
  unknown_operator_policy_disagreement "FOO" (.String "name") "x" (by decide)

/-- C6: for string-family conditions with a present value and operator
Equal/NotEqual/Like/NotLike, `case_insensitive = true` wraps both the column
and the quoted (escaped) literal in `lower(...)`, and
`case_insensitive = false` wraps neither side. -/
theorem string_case_insensitive_folding (column v : String) (op : FilterOperator)
    (h : op = .Equal ∨ op = .NotEqual ∨ op = .Like ∨ op = .NotLike) :
    (FilterCondition.StringValue column op (some v)).to_sql true =
      .ok ("lower(" ++ column ++ ") " ++ op.as_sql ++ " lower('" ++
        FilterCondition.escape_string v ++ "')") ∧
    (FilterCondition.StringValue column op (some v)).to_sql false =
      .ok (column ++ " " ++ op.as_sql ++ " '" ++ FilterCondition.escape_string v ++ "'") ∧
    (FilterCondition.FixedStringValue column op (some v)).to_sql true =
      .ok ("lower(" ++ column ++ ") " ++ op.as_sql ++ " lower('" ++
        FilterCondition.escape_string v ++ "')") ∧
    (FilterCondition.FixedStringValue column op (some v)).to_sql false =
      .ok (column ++ " " ++ op.as_sql ++ " '" ++ FilterCondition.escape_string v ++ "'") := by
  rcases h with h | h | h | h <;> subst h <;> exact ⟨rfl, rfl, rfl, rfl⟩

/-- Witness for C6 at `name = 'John'`. -/
theorem string_case_insensitive_folding_witness :
    (FilterCondition.StringValue "name" .Equal (some "John")).to_sql true =
      .ok "lower(name) = lower('John')" ∧
    (FilterCondition.StringValue "name" .Equal (some "John")).to_sql false =
      .ok "name = 'John'" :=
  ⟨(string_case_insensitive_folding "name" "John" .Equal (Or.inl rfl)).1,
   (string_case_insensitive_folding "name" "John" .Equal (Or.inl rfl)).2.1⟩

/-- C8: a `JSONValue` condition with a path renders exactly as the same
condition whose column is replaced by `JSONExtractString(col, 'path')`
(so the extract expression substitutes for the column everywhere, including
inside `lower(...)`); and for any path, `to_sql` succeeds exactly for
Equal, NotEqual, IsNull and IsNotNull. -/
theorem json_value_path_and_operator_support (column p : String) (op : FilterOperator)
    (v : Option String) (ci : Bool) :
    ((FilterCondition.JSONValue column op v (some p)).to_sql ci =
      (FilterCondition.JSONValue ("JSONExtractString(" ++ column ++ ", '" ++ p ++ "')")
        op v none).to_sql ci) ∧
    (∀ path : Option String,
      (∃ s, (FilterCondition.JSONValue column op v path).to_sql ci = .ok s) ↔
        (op = .Equal ∨ op = .NotEqual ∨ op = .IsNull ∨ op = .IsNotNull)) := by
  constructor
  · cases op <;> cases v <;> cases ci <;> rfl
  · intro path
    cases op <;> cases v <;> cases ci <;> simp [FilterCondition.to_sql]

/-- Witness for C8: the path substitution at a concrete condition, and the
hard error for a comparison operator on JSON. -/
theorem json_value_path_and_operator_support_witness :
    (FilterCondition.JSONValue "data" .Equal (some "v") (some "name")).to_sql true =
      (FilterCondition.JSONValue ("JSONExtractString(" ++ "data" ++ ", '" ++ "name" ++ "')")
        .Equal (some "v") none).to_sql true ∧
    ¬ ∃ s, (FilterCondition.JSONValue "data" .GreaterThan (some "v") (some "name")).to_sql
      true = .ok s := by
  constructor
  · exact (json_value_path_and_operator_support "data" "name" .Equal (some "v") true).1
  · intro hex
    have h := ((json_value_path_and_operator_support "data" "name" .GreaterThan (some "v")
      true).2 (some "name")).1 hex
    simp at h

/-- Every single quote doubles and every other character passes through:
escaping distributes over appends. -/
theorem escapeChars_append (a b : List Char) :
    escapeChars (a ++ b) = escapeChars a ++ escapeChars b := by
  induction a with
  | nil => rfl
  | cons c cs ih => by_cases h : c = squote <;> simp [escapeChars, h, ih]

/-- A quote-free character list is untouched by escaping. -/
theorem escapeChars_of_not_mem (l : List Char) (h : squote ∉ l) : escapeChars l = l := by
  induction l with
  | nil => rfl
  | cons c cs ih =>
    have hc : ¬ (c = squote) := fun e => h (e ▸ List.mem_cons_self c cs)
    have hcs : squote ∉ cs := fun m => h (List.mem_cons_of_mem _ m)
    simp [escapeChars, hc, ih hcs]

/-- C4 (amended): `escape_string` doubles every single quote and alters no
other character (escape("a'b") = "a''b"), and string-family literals are
escaped when interpolated; but UUID values, date/datetime values, and all
DateRange literals (Exact, DateOnly, Range) are interpolated verbatim without
escaping, as is the deliberately-unescaped Relative expression. -/
theorem escape_string_characterization :
    (∀ s t : String, FilterCondition.escape_string (s ++ "'" ++ t) =
        FilterCondition.escape_string s ++ "''" ++ FilterCondition.escape_string t) ∧
    (∀ s : String, squote ∉ s.data → FilterCondition.escape_string s = s) ∧
    FilterCondition.escape_string "a'b" = "a''b" ∧
    (∀ column v : String, (FilterCondition.StringValue column .Equal (some v)).to_sql false =
        .ok (column ++ " = '" ++ FilterCondition.escape_string v ++ "'")) ∧
    (∀ column v : String, (FilterCondition.UUIDValue column .Equal (some v)).to_sql false =
        .ok (column ++ " = '" ++ v ++ "'")) ∧
    (∀ column v : String, (FilterCondition.DateTimeValue column .Equal (some v)).to_sql false =
        .ok (column ++ " = '" ++ v ++ "'")) ∧
    (∀ column ts : String, (FilterCondition.DateRange column (.Exact ts)).to_sql false =
        .ok (column ++ " = '" ++ ts ++ "'")) ∧
    (∀ column a b : String, (FilterCondition.DateRange column (.Range a b)).to_sql false =
        .ok (column ++ " BETWEEN '" ++ a ++ "' AND '" ++ b ++ "'")) ∧
    (∀ column expr : String, (FilterCondition.DateRange column (.Relative expr)).to_sql false =
        .ok (column ++ " > " ++ expr)) := by
  refine ⟨?_, ?_, rfl, ?_, ?_, ?_, ?_, ?_, ?_⟩
  · intro s t
    apply String.ext
    have h2 : escapeChars "'".data = "''".data := rfl
    simp only [FilterCondition.escape_string, String.data_append, escapeChars_append, h2]
  · intro s h
    apply String.ext
    simp only [FilterCondition.escape_string]
    exact escapeChars_of_not_mem _ h
  · intro column v
    apply congrArg Except.ok
    apply String.ext
    simp only [String.data_append, List.append_assoc, FilterOperator.as_sql]
    rfl
  · intro column v
    apply congrArg Except.ok
    apply String.ext
    simp only [String.data_append, List.append_assoc, FilterOperator.as_sql]
    rfl
  · intro column v
    apply congrArg Except.ok
    apply String.ext
    simp only [String.data_append, List.append_assoc, FilterOperator.as_sql]
    rfl
  · intro column ts
    apply congrArg Except.ok
    apply String.ext
    simp only [String.data_append, List.append_assoc]
  · intro column a b
    apply congrArg Except.ok
    apply String.ext
    simp only [String.data_append, List.append_assoc]
  · intro column expr
    rfl

/-- Witness for C4: quote doubling on `"a" ++ "'" ++ "b"` and identity on a
quote-free literal. -/
theorem escape_string_characterization_witness :
    FilterCondition.escape_string ("a" ++ "'" ++ "b") =
      FilterCondition.escape_string "a" ++ "''" ++ FilterCondition.escape_string "b" ∧
    FilterCondition.escape_string "ab" = "ab" :=
  ⟨escape_string_characterization.1 "a" "b",
   escape_string_characterization.2.1 "ab" (by decide)⟩

/-- Counterexample to C4 as stated: a UUID literal containing a quote is
interpolated verbatim, not escaped. -/
theorem uuid_literal_not_escaped :
    (FilterCondition.UUIDValue "id" .Equal (some "a'b")).to_sql false = .ok "id = 'a'b'" ∧
    "id = 'a'b'" ≠ "id = '" ++ FilterCondition.escape_string "a'b" ++ "'" :=
  ⟨rfl, by decide⟩

theorem find?_eq_head?_filter {α} (p : α → Bool) : ∀ l : List α, l.find? p = (l.filter p).head?
  | [] => rfl
  | x :: xs => by
    by_cases h : p x
    · rw [List.find?_cons_of_pos _ h, List.filter_cons_of_pos h]
      rfl
    · rw [List.find?_cons_of_neg _ (by simpa using h), List.filter_cons_of_neg (by simpa using h)]
      exact find?_eq_head?_filter p xs

theorem filter_col_orderedInsert (c : String) (x : SortedColumn) (l : List SortedColumn) :
    (List.orderedInsert sortedColumnLe x l).filter (fun z => z.column == c) =
      if x.column == c then x :: l.filter (fun z => z.column == c)
      else l.filter (fun z => z.column == c) := by
  induction l with
  | nil => by_cases hx : x.column == c <;> simp [List.orderedInsert, List.filter, hx]
  | cons y ys ih =>
    rw [List.orderedInsert]
    by_cases hle : sortedColumnLe x y
    · rw [if_pos hle]
      by_cases hx : x.column == c <;> simp [List.filter_cons, hx]
    · rw [if_neg hle]
      rw [List.filter_cons, ih]
      by_cases hx : x.column == c
      · have hxc : x.column = c := by simpa using hx
        have hlt : y.column.data < x.column.data := by
          simpa [sortedColumnLe, not_le] using hle
        have hy : ¬ (y.column == c) := by
          simp only [beq_iff_eq]
          intro e
          rw [e, ← hxc] at hlt
          exact absurd hlt (lt_irrefl _)
        simp [hx, hy, List.filter_cons]
      · by_cases hy : y.column == c <;> simp [hx, hy, List.filter_cons]

theorem filter_col_insertionSort (c : String) (l : List SortedColumn) :
    (List.insertionSort sortedColumnLe l).filter (fun z => z.column == c) =
      l.filter (fun z => z.column == c) := by
  induction l with
  | nil => rfl
  | cons x xs ih =>
    rw [List.insertionSort, filter_col_orderedInsert, ih, List.filter_cons]

theorem dedupTail_subset (prev : SortedColumn) (l : List SortedColumn) :
    ∀ c ∈ dedupTail prev l, c ∈ l := by
  induction l generalizing prev with
  | nil => simp [dedupTail]
  | cons y ys ih =>
    intro c hc
    rw [dedupTail] at hc
    by_cases h : prev.column = y.column
    · rw [if_pos h] at hc
      exact List.mem_cons_of_mem _ (ih prev c hc)
    · rw [if_neg h] at hc
      rcases List.mem_cons.1 hc with rfl | hc'
      · exact List.mem_cons_self _ _
      · exact List.mem_cons_of_mem _ (ih y c hc')

theorem dedupTail_find (prev : SortedColumn) (l : List SortedColumn)
    (hsort : l.Pairwise sortedColumnLe) (hle : ∀ z ∈ l, sortedColumnLe prev z) :
    ∀ c ∈ dedupTail prev l, prev.column ≠ c.column ∧
      l.find? (fun z => z.column == c.column) = some c := by
  induction l generalizing prev with
  | nil => intro c hc; simp [dedupTail] at hc
  | cons y ys ih =>
    intro c hc
    rw [dedupTail] at hc
    by_cases h : prev.column = y.column
    · rw [if_pos h] at hc
      obtain ⟨hne, hfind⟩ := ih prev hsort.of_cons
        (fun z hz => hle z (List.mem_cons_of_mem _ hz)) c hc
      refine ⟨hne, ?_⟩
      have hy : ¬ (y.column == c.column) := by
        simp only [beq_iff_eq]; rw [← h]; exact hne
      simp [List.find?_cons, hy, hfind]
    · rw [if_neg h] at hc
      rcases List.mem_cons.1 hc with rfl | hc'
      · exact ⟨h, by simp [List.find?_cons]⟩
      · have hley : ∀ z ∈ ys, sortedColumnLe y z :=
          fun z hz => (List.pairwise_cons.1 hsort).1 z hz
        obtain ⟨hyne, hfind⟩ := ih y hsort.of_cons hley c hc'
        have hpy : sortedColumnLe prev y := hle y (List.mem_cons_self _ _)
        have hplt : prev.column.data < y.column.data :=
          lt_of_le_of_ne hpy (fun e => h (String.ext e))
        have hcys : c ∈ ys := dedupTail_subset y ys c hc'
        have hpc : prev.column.data < c.column.data := lt_of_lt_of_le hplt (hley c hcys)
        refine ⟨fun e => ?_, ?_⟩
        · rw [e] at hpc; exact absurd hpc (lt_irrefl _)
        · have hy : ¬ (y.column == c.column) := by simp only [beq_iff_eq]; exact hyne
          simp [List.find?_cons, hy, hfind]

theorem dedupTail_strict (prev : SortedColumn) (l : List SortedColumn)
    (hsort : l.Pairwise sortedColumnLe) (hle : ∀ z ∈ l, sortedColumnLe prev z) :
    (∀ z ∈ dedupTail prev l, prev.column.data < z.column.data) ∧
    (dedupTail prev l).Pairwise (fun a b => a.column.data < b.column.data) := by
  induction l generalizing prev with
  | nil => simp [dedupTail]
  | cons y ys ih =>
    rw [dedupTail]
    by_cases h : prev.column = y.column
    · rw [if_pos h]
      exact ih prev hsort.of_cons (fun z hz => hle z (List.mem_cons_of_mem _ hz))
    · rw [if_neg h]
      have hius := ih y hsort.of_cons (fun z hz => (List.pairwise_cons.1 hsort).1 z hz)
      have hpy : sortedColumnLe prev y := hle y (List.mem_cons_self _ _)
      have hplt : prev.column.data < y.column.data :=
        lt_of_le_of_ne hpy (fun e => h (String.ext e))
      constructor
      · intro z hz
        rcases List.mem_cons.1 hz with rfl | hz'
        · exact hplt
        · exact lt_trans hplt (hius.1 z hz')
      · exact List.pairwise_cons.2 ⟨hius.1, hius.2⟩

theorem dedupTail_complete (prev : SortedColumn) (l : List SortedColumn) :
    ∀ x ∈ l, x.column = prev.column ∨ ∃ c ∈ dedupTail prev l, c.column = x.column := by
  induction l generalizing prev with
  | nil => simp
  | cons y ys ih =>
    intro x hx
    rw [dedupTail]
    by_cases h : prev.column = y.column
    · rw [if_pos h]
      rcases List.mem_cons.1 hx with rfl | hx'
      · exact Or.inl h.symm
      · exact ih prev x hx'
    · rw [if_neg h]
      rcases List.mem_cons.1 hx with rfl | hx'
      · exact Or.inr ⟨x, List.mem_cons_self _ _, rfl⟩
      · rcases ih y x hx' with he | ⟨c, hc, hce⟩
        · exact Or.inr ⟨y, List.mem_cons_self _ _, he.symm⟩
        · exact Or.inr ⟨c, List.mem_cons_of_mem _ hc, hce⟩

/-- C7: `Sorting::new` canonicalizes: the retained column list is strictly
sorted alphabetically by column name, each retained entry is the first
occurrence of its column name in the input (later duplicates are dropped),
every input column name is represented, `[(name,asc),(age,desc)]` yields
exactly `" ORDER BY age DESC, name ASC"`, and empty input yields `""`. -/
theorem sorting_new_canonicalization (cols : List SortedColumn) :
    ((Sorting.new cols).columns).Pairwise (fun a b => a.column.data < b.column.data) ∧
    (∀ c ∈ (Sorting.new cols).columns,
      cols.find? (fun z => z.column == c.column) = some c) ∧
    (∀ x ∈ cols, ∃ c ∈ (Sorting.new cols).columns, c.column = x.column) ∧
    (Sorting.new [SortedColumn.new "name" "asc", SortedColumn.new "age" "desc"]).sql =
      " ORDER BY age DESC, name ASC" ∧
    (Sorting.new []).sql = "" := by
  have hcols : (Sorting.new cols).columns =
      dedupByColumn (List.insertionSort sortedColumnLe cols) := rfl
  have hsorted : (List.insertionSort sortedColumnLe cols).Pairwise sortedColumnLe :=
    List.sorted_insertionSort sortedColumnLe cols
  refine ⟨?_, ?_, ?_, rfl, rfl⟩
  · rw [hcols]
    cases hs : List.insertionSort sortedColumnLe cols with
    | nil => simp [dedupByColumn]
    | cons x rest =>
      rw [dedupByColumn]
      rw [hs] at hsorted
      have hst := dedupTail_strict x rest hsorted.of_cons
        (fun z hz => (List.pairwise_cons.1 hsorted).1 z hz)
      exact List.pairwise_cons.2 ⟨hst.1, hst.2⟩
  · rw [hcols]
    intro c hc
    have key : (List.insertionSort sortedColumnLe cols).find?
        (fun z => z.column == c.column) = some c := by
      rcases hs : List.insertionSort sortedColumnLe cols with _ | ⟨x, rest⟩
      · rw [hs] at hc; simp [dedupByColumn] at hc
      · rw [hs] at hc hsorted
        rw [dedupByColumn] at hc
        rcases List.mem_cons.1 hc with rfl | hc'
        · simp [List.find?_cons]
        · obtain ⟨hne, hfind⟩ := dedupTail_find x rest hsorted.of_cons
            (fun z hz => (List.pairwise_cons.1 hsorted).1 z hz) c hc'
          have hx : ¬ (x.column == c.column) := by simp only [beq_iff_eq]; exact hne
          simp [List.find?_cons, hx, hfind]
    rw [find?_eq_head?_filter] at key ⊢
    rw [← filter_col_insertionSort c.column cols]
    exact key
  · rw [hcols]
    intro x hx
    have hx' : x ∈ List.insertionSort sortedColumnLe cols :=
      (List.mem_insertionSort sortedColumnLe).2 hx
    rcases hs : List.insertionSort sortedColumnLe cols with _ | ⟨y, rest⟩
    · rw [hs] at hx'; simp at hx'
    · rw [hs] at hx'
      rw [dedupByColumn]
      rcases List.mem_cons.1 hx' with rfl | hx''
      · exact ⟨x, List.mem_cons_self _ _, rfl⟩
      · rcases dedupTail_complete y rest x hx'' with he | ⟨c, hc, hce⟩
        · exact ⟨y, List.mem_cons_self _ _, he.symm⟩
        · exact ⟨c, List.mem_cons_of_mem _ hc, hce⟩


/-- Witness for C7: in `[(name,asc),(age,desc)]` the retained entry for `age`
is the first (and only) occurrence in the input. -/
theorem sorting_new_canonicalization_witness :
    [SortedColumn.new "name" "asc", SortedColumn.new "age" "desc"].find?
      (fun z => z.column == (SortedColumn.new "age" "desc").column) =
      some (SortedColumn.new "age" "desc") :=
  (sorting_new_canonicalization
    [SortedColumn.new "name" "asc", SortedColumn.new "age" "desc"]).2.1
    (SortedColumn.new "age" "desc") (by decide)

end ClickhouseFilters
